import Mathlib

/-!
Verification of the phiprof timer-tree core (src/timertree.cpp).

The TimerTree operations are shallowly embedded from src/timertree.cpp.
The node type TimerData lives in timerdata.hpp, which is not among the
repository files available here; its fields and methods are modelled from
the specification, section 4.1 (TimerNode).  C++ `int` indices are
modelled as Int (the current-node cursor can hold -1), the C++
`unsigned long` hash accumulator as Nat reduced modulo 2 ^ 64, and the
`double` time values as Rat, with the monotonic clock collaborator passed
in explicitly as a `now` argument.  Out-of-range vector indexing, which
is undefined behaviour in C++, is modelled by a sentinel default node;
theorems that depend on an index being in range carry that as a
hypothesis.
-/

/-- Modelled from the spec: the TimerNode/TimerData record of
timerdata.hpp (spec section 3 and 4.1): identity (label, groups,
work-unit label), tree position (parent id, own id, child ids) and the
timing state machine (active flag, start time, accumulated total time,
call count, work units). -/
structure TimerData where
  parentId : Int
  id : Int
  label : String
  groups : List String
  workUnitLabel : String
  childIds : List Int
  active : Bool
  startTime : Rat
  totalTime : Rat
  callCount : Nat
  workUnits : Rat
deriving DecidableEq

/-- Fresh node as the TimerData constructor builds it: position and
identity filled in, timing state zeroed and inactive. -/
def TimerData.mkNode (parentId id : Int) (label : String)
    (groups : List String) (workUnitLabel : String) : TimerData :=
  { parentId := parentId, id := id, label := label, groups := groups,
    workUnitLabel := workUnitLabel, childIds := [], active := false,
    startTime := 0, totalTime := 0, callCount := 0, workUnits := 0 }

/-- Sentinel standing for the node an out-of-range C++ access would
touch; its position fields are -1 so it points nowhere. -/
instance : Inhabited TimerData :=
  ⟨TimerData.mkNode (-1) (-1) "" [] ""⟩

/-- Modelled from the spec: TimerData::start marks the node active,
captures the clock reading, increments the call count and returns the
node's own id (spec 4.1). -/
def TimerData.start (d : TimerData) (now : Rat) : TimerData × Int :=
  ({ d with active := true, startTime := now, callCount := d.callCount + 1 },
   d.id)

/-- Modelled from the spec: TimerData::stop marks the node inactive,
adds the elapsed time to the accumulated total when the node was active
(stopping an inactive node is a reported inconsistency that does not
corrupt the accumulator), and returns the parent id (spec 4.1). -/
def TimerData.stop (d : TimerData) (now : Rat) : TimerData × Int :=
  ({ d with
      active := false,
      totalTime := (if d.active then d.totalTime + (now - d.startTime) else d.totalTime) },
   d.parentId)

/-- Modelled from the spec: average time is total time over
max(call count, 1) (spec 4.1). -/
def TimerData.getAverageTime (d : TimerData) : Rat :=
  d.totalTime / ((max d.callCount 1 : Nat) : Rat)

/-- One step of the node-level string hash: fold a character byte into a
64-bit accumulator. -/
def hashStep (h : Nat) (c : Char) : Nat :=
  (h * 31 + c.toNat) % 2 ^ 64

/-- Fold a whole string into the 64-bit hash accumulator. -/
def hashString (h : Nat) (s : String) : Nat :=
  s.data.foldl hashStep h

/-- Modelled from the spec: TimerData::getHash deterministically
combines the bytes of the label, of every group string in order, and of
the work-unit label into one accumulator (spec 4.1). -/
def TimerData.getHash (d : TimerData) : Nat :=
  hashString (d.groups.foldl hashString (hashString 0 d.label))
    d.workUnitLabel

/-- Modelled from the spec: TimerData::resetTime zeroes the accumulated
time and, when the reset-wall-time argument is truthy and the node is
active, moves the start marker to the present clock reading; the call
count is unchanged (spec 4.1 and 4.8). -/
def TimerData.resetTime (d : TimerData) (resetWallTime now : Rat) :
    TimerData :=
  { d with
      totalTime := 0,
      startTime := (if resetWallTime ≠ 0 ∧ d.active then now else d.startTime) }

/-- Modelled from the spec: TimerData::shiftActiveStartTime pushes an
active node's recorded start time forward by the given interval (spec
4.1 and 4.8). -/
def TimerData.shiftActiveStartTime (d : TimerData) (shift : Rat) :
    TimerData :=
  if d.active then { d with startTime := d.startTime + shift } else d

/-- The timer tree of timertree.cpp: the growing node sequence and the
cursor of the innermost current timer. -/
structure TimerTree where
  timers : List TimerData
  currentId : Int
deriving DecidableEq

/-- Reading timers[i]: the node stored at index i, or the sentinel when
i is outside the vector (an access C++ leaves undefined). -/
def TimerTree.node (t : TimerTree) (i : Int) : TimerData :=
  if 0 ≤ i then t.timers.getD i.toNat default else default

/-- Writing timers[i]: replace the node at index i, a no-op when i is
outside the vector. -/
def TimerTree.setNode (t : TimerTree) (i : Int) (d : TimerData) :
    TimerTree :=
  if 0 ≤ i then { t with timers := t.timers.set i.toNat d } else t

/-- TimerTree::TimerTree (timertree.cpp lines 13-22): sets currentId to
-1, pushes the root node (id 0, label "total", single group "Total",
null parent) and calls timers[0].start() discarding the returned id, so
currentId is left at -1. -/
def TimerTree.new (now : Rat) : TimerTree :=
  { timers := [((TimerData.mkNode (-1) 0 "total" ["Total"] "").start now).1],
    currentId := -1 }

/-- The scan inside TimerTree::getChildId: walk a child-id list and
return the first whose node's label matches, -1 when none does. -/
def findChild (t : TimerTree) (label : String) : List Int → Int
  | [] => -1
  | c :: rest => if (t.node c).label = label then c else findChild t label rest

/-- TimerTree::getChildId (lines 129-138): first child of the current
node whose label matches, -1 when there is none. -/
def TimerTree.getChildId (t : TimerTree) (label : String) : Int :=
  findChild t label (t.node t.currentId).childIds

/-- The create branch of TimerTree::initializeTimer (lines 36-38):
append a fresh node whose id is the vector size before the push and
whose parent is the current node.  The C++ TimerData constructor
receives a pointer to the parent node and registers the new id in the
parent's child list (modelled from the spec, sections 3 and 4.3); here
that registration is written out explicitly. -/
def TimerTree.createTimer (t : TimerTree) (label : String)
    (groups : List String) (workUnit : String) : TimerTree × Int :=
  let newId : Int := (t.timers.length : Int)
  let t1 : TimerTree :=
    { t with timers :=
        t.timers ++ [TimerData.mkNode t.currentId newId label groups workUnit] }
  let parent := t1.node t.currentId
  (t1.setNode t.currentId { parent with childIds := parent.childIds ++ [newId] },
   newId)

/-- TimerTree::initializeTimer (lines 27-44): return the id of the
current node's child with this label, creating the node when the label
is absent.  The OpenMP master/barrier pair makes the whole team observe
the one leader's update, so the team-level effect is this sequential
one. -/
def TimerTree.initializeTimer (t : TimerTree) (label : String)
    (groups : List String) (workUnit : String) : TimerTree × Int :=
  let id := t.getChildId label
  if id < 0 then t.createTimer label groups workUnit else (t, id)

/-- TimerTree::start(int) (lines 47-53): start the node, move the
cursor to the id the node returns, report whether it equals the
requested id. -/
def TimerTree.startId (t : TimerTree) (id : Int) (now : Rat) :
    TimerTree × Bool :=
  let p := (t.node id).start now
  ({ t.setNode id p.1 with currentId := p.2 }, p.2 == id)

/-- TimerTree::start(label) (lines 56-61): resolve or create the child,
move the cursor to it, start it, and return the C++ int-to-bool
conversion of the started node's id. -/
def TimerTree.startLabel (t : TimerTree) (label : String) (now : Rat) :
    TimerTree × Bool :=
  let r := t.initializeTimer label [] ""
  let t1 : TimerTree := { r.1 with currentId := r.2 }
  let p := (t1.node t1.currentId).start now
  (t1.setNode t1.currentId p.1, p.2 != 0)

/-- TimerTree::stop(int) (lines 65-77), without DEBUG_PHIPROF_TIMERS:
the id argument is not used; the node at the cursor is stopped and the
cursor moves to the parent id it returns. -/
def TimerTree.stopId (t : TimerTree) (id : Int) (now : Rat) :
    TimerTree × Bool :=
  let p := (t.node t.currentId).stop now
  ({ t.setNode t.currentId p.1 with currentId := p.2 }, true)

/-- TimerTree::stop(label) (lines 110-114): the label argument is not
used; same effect as stop by id. -/
def TimerTree.stopLabel (t : TimerTree) (label : String) (now : Rat) :
    TimerTree × Bool :=
  let p := (t.node t.currentId).stop now
  ({ t.setNode t.currentId p.1 with currentId := p.2 }, true)

/-- TimerTree::stop(int, double) (lines 80-92), without
DEBUG_PHIPROF_TIMERS.  Its body is currentId = stop(currentId,
workUnits); return true; and the only member overload taking (int,
double) is this very function, so the call recurses into itself with no
base case.  The embedding makes the recursion depth explicit as fuel;
the some-branch records the int-from-bool conversion the assignment to
currentId would perform if the inner call ever returned. -/
def TimerTree.stopIdWU : Nat → TimerTree → Int → Rat →
    Option (TimerTree × Bool)
  | 0, _, _, _ => none
  | fuel + 1, t, _, workUnits =>
    match TimerTree.stopIdWU fuel t t.currentId workUnits with
    | none => none
    | some p => some ({ p.1 with currentId := if p.2 then 1 else 0 }, true)

/-- TimerTree::stop(int, double, string) (lines 94-107), without
DEBUG_PHIPROF_TIMERS: as with the two-argument overload, the body calls
the (int, double, string) overload, itself, with no base case. -/
def TimerTree.stopIdWUL : Nat → TimerTree → Int → Rat → String →
    Option (TimerTree × Bool)
  | 0, _, _, _, _ => none
  | fuel + 1, t, _, workUnits, workUnitLabel =>
    match TimerTree.stopIdWUL fuel t t.currentId workUnits workUnitLabel with
    | none => none
    | some p => some ({ p.1 with currentId := if p.2 then 1 else 0 }, true)

/-- TimerTree::stop(label, double, string) (lines 118-124): its body
calls the (int, double, string) overload, which never returns. -/
def TimerTree.stopLabelWUL (fuel : Nat) (t : TimerTree) (label : String)
    (workUnits : Rat) (workUnitLabel : String) :
    Option (TimerTree × Bool) :=
  match TimerTree.stopIdWUL fuel t t.currentId workUnits workUnitLabel with
  | none => none
  | some p => some ({ p.1 with currentId := if p.2 then 1 else 0 }, true)

/-- TimerTree::getTime (lines 143-145): the node's average time. -/
def TimerTree.getTime (t : TimerTree) (id : Int) : Rat :=
  (t.node id).getAverageTime

/-- TimerTree::getGroupTime (lines 149-163) with its recursion depth
made explicit as fuel: a node in the group contributes its own average
time and cuts the recursion off; otherwise the contributions of the
direct children are summed.  The C++ loop over the node's group list
returning on the first equality is membership in that list. -/
def TimerTree.getGroupTimeF (t : TimerTree) (group : String) :
    Nat → Int → Rat
  | 0, _ => 0
  | fuel + 1, id =>
    if group ∈ (t.node id).groups then (t.node id).getAverageTime
    else ((t.node id).childIds.map fun c => t.getGroupTimeF group fuel c).sum

/-- TimerTree::getGroupTime at fuel equal to the number of nodes, which
bounds the depth of every well-formed tree. -/
def TimerTree.getGroupTime (t : TimerTree) (group : String) (id : Int) :
    Rat :=
  t.getGroupTimeF group t.timers.length id

/-- The unsigned long accumulation inside TimerTree::getHash (lines
167-173): the node's own hash plus each direct child's node hash, with
the C++ 64-bit wraparound.  Reducing the sum once equals reducing after
each addition. -/
def TimerTree.rawHash (t : TimerTree) (id : Int) : Nat :=
  ((t.node id).getHash
    + ((t.node id).childIds.map fun c => (t.node c).getHash).sum) % 2 ^ 64

/-- TimerTree::getHash (lines 167-182): 1 when the accumulated value is
zero, otherwise the value reduced modulo the largest int,
2147483647. -/
def TimerTree.getHash (t : TimerTree) (id : Int) : Int :=
  if t.rawHash id = 0 then 1 else ((t.rawHash id % 2147483647 : Nat) : Int)

/-- The while loop of TimerTree::getFullLabel (lines 188-192) with its
iteration count made explicit as fuel: collect labels walking parent
links while the id stays strictly positive, so the root contributes
nothing. -/
def TimerTree.collectLabels (t : TimerTree) : Nat → Int → List String
  | 0, _ => []
  | fuel + 1, id =>
    if 0 < id then (t.node id).label :: t.collectLabels fuel (t.node id).parentId
    else []

/-- TimerTree::getFullLabel (lines 186-209) at fuel equal to the number
of nodes, which bounds every well-formed parent chain: in reverse order
each collected label is followed by a backslash; in normal order the
collected labels are emitted outermost first, each preceded by a
slash. -/
def TimerTree.getFullLabel (t : TimerTree) (id : Int) (reverse : Bool) :
    String :=
  let labels := t.collectLabels t.timers.length id
  if reverse then labels.foldl (fun s l => s ++ l ++ "\\") ""
  else labels.reverse.foldl (fun s l => s ++ "/" ++ l) ""

/-- TimerTree::resetTime (lines 212-217): reset the node at id and then
each of its direct children, nothing deeper. -/
def TimerTree.resetTime (t : TimerTree) (resetWallTime : Rat) (id : Int)
    (now : Rat) : TimerTree :=
  let t1 := t.setNode id ((t.node id).resetTime resetWallTime now)
  (t.node id).childIds.foldl
    (fun acc c => acc.setNode c ((acc.node c).resetTime resetWallTime now)) t1

/-- TimerTree::shiftActiveStartTime (lines 220-225): shift the node at
id and then each of its direct children, nothing deeper. -/
def TimerTree.shiftActiveStartTime (t : TimerTree) (shift : Rat)
    (id : Int) : TimerTree :=
  let t1 := t.setNode id ((t.node id).shiftActiveStartTime shift)
  (t.node id).childIds.foldl
    (fun acc c => acc.setNode c ((acc.node c).shiftActiveStartTime shift)) t1

/-- One public mutating call of the tree (the terminating ones). -/
inductive Op where
  | initTimer (label : String) (groups : List String) (workUnit : String)
  | startI (id : Int) (now : Rat)
  | startL (label : String) (now : Rat)
  | stopI (id : Int) (now : Rat)
  | stopL (label : String) (now : Rat)
  | reset (resetWallTime : Rat) (id : Int) (now : Rat)
  | shift (shift : Rat) (id : Int)

/-- Effect of one call on the tree state. -/
def TimerTree.step (t : TimerTree) : Op → TimerTree
  | .initTimer l g w => (t.initializeTimer l g w).1
  | .startI id now => (t.startId id now).1
  | .startL l now => (t.startLabel l now).1
  | .stopI id now => (t.stopId id now).1
  | .stopL l now => (t.stopLabel l now).1
  | .reset rw id now => t.resetTime rw id now
  | .shift s id => t.shiftActiveStartTime s id

/-- Run a sequence of calls. -/
def TimerTree.run (t : TimerTree) : List Op → TimerTree
  | [] => t
  | op :: ops => (t.step op).run ops

/-- A state some sequence of public calls produces from a freshly
constructed tree. -/
def Reachable (t : TimerTree) : Prop :=
  ∃ now ops, t = (TimerTree.new now).run ops

/-- Structural well-formedness of one slot: the stored node's id is its
index, its parent comes strictly earlier (or is the root's -1), and its
children lie strictly later but inside the vector and point back to
it. -/
def nodeOK (t : TimerTree) (i : Nat) : Prop :=
  (t.node (i : Int)).id = (i : Int)
  ∧ -1 ≤ (t.node (i : Int)).parentId
  ∧ (t.node (i : Int)).parentId < (i : Int)
  ∧ ∀ c ∈ (t.node (i : Int)).childIds,
      (i : Int) < c ∧ c < (t.timers.length : Int)
      ∧ (t.node c).parentId = (i : Int)

/-- Structural well-formedness of the whole tree. -/
def WF (t : TimerTree) : Prop := ∀ i < t.timers.length, nodeOK t i

/-- The run-time invariant: well-formed structure and a cursor that is
-1 or a valid index. -/
def TreeInv (t : TimerTree) : Prop :=
  WF t ∧ -1 ≤ t.currentId ∧ t.currentId < (t.timers.length : Int)

instance (t : TimerTree) (i : Nat) : Decidable (nodeOK t i) := by
  unfold nodeOK; infer_instance

instance (t : TimerTree) : Decidable (WF t) := by
  unfold WF; infer_instance

instance (t : TimerTree) : Decidable (TreeInv t) := by
  unfold TreeInv; infer_instance

/-- Concrete chain root -> "A" -> "B", built through the public calls
(the cursor must first be moved onto the root by start(0), since the
constructor leaves it at -1). -/
def chainTree : TimerTree :=
  ((((TimerTree.new 0).startId 0 0).1.startLabel "A" 0).1.startLabel "B" 0).1

/-- Label whose bytes fold to exactly 2147483647, the largest int, under
the node-level hash. -/
def zeroHashLabel : String :=
  String.mk [Char.ofNat 2, Char.ofNat 12, Char.ofNat 31, Char.ofNat 9,
    Char.ofNat 30, Char.ofNat 12, Char.ofNat 1]

/-- Tree holding one child timer whose raw hash is a nonzero multiple of
the largest int. -/
def zeroHashTree : TimerTree :=
  (((TimerTree.new 0).startId 0 0).1.initializeTimer zeroHashLabel [] "").1

/-- Two nodes agreeing on everything that places them in the tree: id,
parent, label and child list (only timing state may differ). -/
def sameShape (d e : TimerData) : Prop :=
  d.id = e.id ∧ d.parentId = e.parentId ∧ d.label = e.label
  ∧ d.childIds = e.childIds

/-- Two nodes agreeing on id, parent and label (child lists may
differ). -/
def samePos (d e : TimerData) : Prop :=
  d.id = e.id ∧ d.parentId = e.parentId ∧ d.label = e.label

/-- A balanced, strictly LIFO-nested sequence of start/stop calls:
nil is the empty sequence, and node l inner rest stands for
start(l); inner; stop(cursor); rest — every started timer is stopped
after everything it encloses and before anything that follows it. -/
inductive Prog where
  | nil : Prog
  | node (label : String) (inner rest : Prog) : Prog

/-- Run a balanced LIFO sequence: each start is a start-by-label call
and each stop is a stop call for the most recently started, not yet
stopped timer (the one the cursor names). -/
def runProg (now : Rat) : TimerTree → Prog → TimerTree
  | t, .nil => t
  | t, .node l inner rest =>
    let t1 := (t.startLabel l now).1
    let t2 := runProg now t1 inner
    let t3 := (t2.stopId t2.currentId now).1
    runProg now t3 rest

/-- The dense-and-stable-ids property of C9, stated of one tree: every
stored node's id is its index; initializeTimer either returns the tree
unchanged (label found) or appends one node carrying id equal to the old
length and parent equal to the cursor; and no public call shrinks the
sequence or changes the id stored at an existing index. -/
def C9Spec (t : TimerTree) : Prop :=
  (∀ i < t.timers.length, (t.node (i : Int)).id = (i : Int))
  ∧ (∀ (l : String) (g : List String) (w : String),
      (t.getChildId l < 0 →
        (t.initializeTimer l g w).2 = (t.timers.length : Int)
        ∧ (t.initializeTimer l g w).1.timers.length = t.timers.length + 1
        ∧ ((t.initializeTimer l g w).1.node (t.timers.length : Int)).id
            = (t.timers.length : Int)
        ∧ ((t.initializeTimer l g w).1.node (t.timers.length : Int)).parentId
            = t.currentId)
      ∧ (¬ t.getChildId l < 0 → (t.initializeTimer l g w).1 = t))
  ∧ (∀ op : Op, t.timers.length ≤ (t.step op).timers.length
      ∧ ∀ i < t.timers.length, ((t.step op).node (i : Int)).id = (i : Int))

lemma TimerTree.length_setNode (t : TimerTree) (i : Int) (d : TimerData) :
    (t.setNode i d).timers.length = t.timers.length := by
  unfold TimerTree.setNode; split <;> simp

lemma TimerTree.currentId_setNode (t : TimerTree) (i : Int) (d : TimerData) :
    (t.setNode i d).currentId = t.currentId := by
  unfold TimerTree.setNode; split <;> rfl

lemma TimerTree.node_mk_currentId (t : TimerTree) (v : Int) (i : Int) :
    TimerTree.node { t with currentId := v } i = t.node i := rfl

lemma TimerTree.node_neg (t : TimerTree) {i : Int} (h : i < 0) :
    t.node i = default := by
  unfold TimerTree.node; rw [if_neg (by omega)]

lemma TimerTree.node_oob (t : TimerTree) {i : Int} (h0 : 0 ≤ i)
    (h1 : t.timers.length ≤ i.toNat) : t.node i = default := by
  unfold TimerTree.node
  rw [if_pos h0, List.getD_eq_getElem?_getD, List.getElem?_eq_none h1]
  rfl

lemma TimerTree.node_setNode_self (t : TimerTree) {i : Int} (d : TimerData)
    (h0 : 0 ≤ i) (h1 : i.toNat < t.timers.length) :
    (t.setNode i d).node i = d := by
  unfold TimerTree.setNode TimerTree.node
  rw [if_pos h0, if_pos h0]
  show (t.timers.set i.toNat d).getD i.toNat default = d
  rw [List.getD_eq_getElem?_getD, List.getElem?_set_eq_of_lt d h1]
  rfl

lemma TimerTree.node_setNode_ne (t : TimerTree) {i j : Int} (d : TimerData)
    (h : j ≠ i) : (t.setNode i d).node j = t.node j := by
  unfold TimerTree.setNode TimerTree.node
  by_cases hi : 0 ≤ i
  · rw [if_pos hi]
    by_cases hj : 0 ≤ j
    · rw [if_pos hj, if_pos hj]
      show (t.timers.set i.toNat d).getD j.toNat default
        = t.timers.getD j.toNat default
      rw [List.getD_eq_getElem?_getD, List.getD_eq_getElem?_getD,
        List.getElem?_set_ne (by omega)]
    · rw [if_neg hj, if_neg hj]
  · rw [if_neg hi]

lemma TimerTree.node_append_lt (t : TimerTree) (l : List TimerData) {i : Int}
    (h0 : 0 ≤ i) (h1 : i.toNat < t.timers.length) :
    TimerTree.node { t with timers := t.timers ++ l } i = t.node i := by
  unfold TimerTree.node
  rw [if_pos h0, if_pos h0]
  show (t.timers ++ l).getD i.toNat default = t.timers.getD i.toNat default
  rw [List.getD_eq_getElem?_getD, List.getD_eq_getElem?_getD,
    List.getElem?_append_left h1]

lemma TimerTree.node_append_last (t : TimerTree) (d : TimerData) :
    TimerTree.node { t with timers := t.timers ++ [d] }
      ((t.timers.length : Nat) : Int) = d := by
  unfold TimerTree.node
  rw [if_pos (by omega)]
  show (t.timers ++ [d]).getD ((t.timers.length : Int)).toNat default = d
  have h : ((t.timers.length : Int)).toNat = t.timers.length := by omega
  rw [h, List.getD_eq_getElem?_getD, List.getElem?_concat_length]
  rfl

/-- Helper for C2: the stop(int, double) overload returns no value at
any recursion depth. -/
theorem stopIdWU_none (fuel : Nat) :
    ∀ (t : TimerTree) (id : Int) (wu : Rat),
      TimerTree.stopIdWU fuel t id wu = none := by
  induction fuel with
  | zero => intro t id wu; rfl
  | succ n ih => intro t id wu; simp [TimerTree.stopIdWU, ih]

/-- Helper for C2: the stop(int, double, string) overload returns no
value at any recursion depth. -/
theorem stopIdWUL_none (fuel : Nat) :
    ∀ (t : TimerTree) (id : Int) (wu : Rat) (wl : String),
      TimerTree.stopIdWUL fuel t id wu wl = none := by
  induction fuel with
  | zero => intro t id wu wl; rfl
  | succ n ih => intro t id wu wl; simp [TimerTree.stopIdWUL, ih]

/-- C1: the constructed tree has exactly one node, the root, with id 0,
label "total", the single group "Total", parent -1, already started;
but the cursor is left at -1, not 0: the constructor discards the id
that timers[0].start() returns, so the claimed postcondition
current_id = 0 fails. -/
theorem c1_construction_state (now : Rat) :
    (TimerTree.new now).timers.length = 1
    ∧ ((TimerTree.new now).node 0).id = 0
    ∧ ((TimerTree.new now).node 0).label = "total"
    ∧ ((TimerTree.new now).node 0).groups = ["Total"]
    ∧ ((TimerTree.new now).node 0).parentId = -1
    ∧ ((TimerTree.new now).node 0).active = true
    ∧ ((TimerTree.new now).node 0).callCount = 1
    ∧ (TimerTree.new now).currentId = -1
    ∧ (TimerTree.new now).currentId ≠ 0 := by
  refine ⟨rfl, rfl, rfl, rfl, rfl, rfl, rfl, rfl, ?_⟩
  show (-1 : Int) ≠ 0
  decide

/-- C2: of the five stop overloads, stop(id) and stop(label) indeed stop
the node at the cursor, move the cursor to its parent id and return
true; but stop(id, workUnits), stop(id, workUnits, workUnitLabel) and
stop(label, workUnits, workUnitLabel) call themselves with no base case
and never return a value, at any recursion depth, contradicting the
claim that every overload terminates with that common effect. -/
theorem c2_stop_overloads :
    (∀ (fuel : Nat) (t : TimerTree) (id : Int) (wu : Rat),
      TimerTree.stopIdWU fuel t id wu = none)
    ∧ (∀ (fuel : Nat) (t : TimerTree) (id : Int) (wu : Rat) (wl : String),
      TimerTree.stopIdWUL fuel t id wu wl = none)
    ∧ (∀ (fuel : Nat) (t : TimerTree) (l : String) (wu : Rat) (wl : String),
      TimerTree.stopLabelWUL fuel t l wu wl = none)
    ∧ (∀ (t : TimerTree) (id : Int) (now : Rat),
      (t.stopId id now).2 = true
      ∧ (t.stopId id now).1.currentId = (t.node t.currentId).parentId
      ∧ (0 ≤ t.currentId → t.currentId.toNat < t.timers.length →
          (t.stopId id now).1.node t.currentId
            = ((t.node t.currentId).stop now).1))
    ∧ (∀ (t : TimerTree) (l : String) (now : Rat),
      (t.stopLabel l now).2 = true
      ∧ (t.stopLabel l now).1.currentId = (t.node t.currentId).parentId) := by
  refine ⟨stopIdWU_none, stopIdWUL_none, ?_, ?_, ?_⟩
  · intro fuel t l wu wl
    simp [TimerTree.stopLabelWUL, stopIdWUL_none]
  · intro t id now
    refine ⟨rfl, rfl, fun h0 h1 => ?_⟩
    exact TimerTree.node_setNode_self t _ h0 h1
  · intro t l now
    exact ⟨rfl, rfl⟩

/-- C3 counterexample: a reachable tree and node id at which getHash
returns 0: the raw 64-bit accumulation is 2147483647, nonzero, so the
zero check passes it through, and reducing modulo the largest int then
yields 0. -/
theorem c3_getHash_zero_counterexample :
    zeroHashTree.getHash 1 = 0 ∧ zeroHashTree.rawHash 1 ≠ 0
    ∧ Reachable zeroHashTree := by
  refine ⟨by decide, by decide, 0, [Op.startI 0 0, Op.initTimer zeroHashLabel [] ""], rfl⟩

/-- C3 amended: getHash returns 1 when the raw accumulated hash is 0 and
otherwise the raw value reduced modulo the largest int 2147483647; it
returns 0 exactly when the raw value is a nonzero multiple of
2147483647 (so it is not never-zero). -/
theorem c3_getHash_amended (t : TimerTree) (id : Int) :
    t.getHash id
      = (if t.rawHash id = 0 then 1 else ((t.rawHash id % 2147483647 : Nat) : Int))
    ∧ (t.getHash id = 0 ↔ (t.rawHash id ≠ 0 ∧ t.rawHash id % 2147483647 = 0)) := by
  refine ⟨rfl, ?_⟩
  unfold TimerTree.getHash
  by_cases h : t.rawHash id = 0
  · simp [h]
  · rw [if_neg h]
    constructor
    · intro h0
      refine ⟨h, ?_⟩
      exact_mod_cast h0
    · rintro ⟨-, h2⟩
      exact_mod_cast h2

/-- C7: on the chain root -> "A" -> "B" (node 1 is "A" under the root,
node 2 is "B" under "A"), the full label of "B" is "/A/B" in normal
order and "B\A\" in reverse order, the root's own label appearing in
neither. -/
theorem c7_getFullLabel_chain :
    (chainTree.node 1).label = "A"
    ∧ (chainTree.node 1).parentId = 0
    ∧ (chainTree.node 2).label = "B"
    ∧ (chainTree.node 2).parentId = 1
    ∧ chainTree.getFullLabel 2 false = "/A/B"
    ∧ chainTree.getFullLabel 2 true = "B\\A\\" := by
  refine ⟨rfl, rfl, rfl, rfl, by decide, by decide⟩

/-- C10: without the debug nesting check, stop(id) ignores its id
argument entirely: any two ids give identical results from the same
state, the returned flag is true, and the effect is to stop the node at
the cursor and move the cursor to that node's parent id. -/
theorem c10_stopId_ignores_id (t : TimerTree) (id1 id2 : Int) (now : Rat) :
    t.stopId id1 now = t.stopId id2 now
    ∧ (t.stopId id1 now).2 = true
    ∧ (t.stopId id1 now).1.currentId = (t.node t.currentId).parentId
    ∧ (0 ≤ t.currentId → t.currentId.toNat < t.timers.length →
        (t.stopId id1 now).1.node t.currentId
          = ((t.node t.currentId).stop now).1) := by
  exact ⟨rfl, rfl, rfl, fun h0 h1 => TimerTree.node_setNode_self t _ h0 h1⟩

lemma TimerTree.node_foldl_ne {j : Int} (F : TimerTree → Int → TimerTree)
    (hF : ∀ (acc : TimerTree) (c : Int), j ≠ c → (F acc c).node j = acc.node j)
    (l : List Int) (t : TimerTree) (hj : j ∉ l) :
    (l.foldl F t).node j = t.node j := by
  induction l generalizing t with
  | nil => rfl
  | cons c rest ih =>
    rw [List.foldl_cons, ih (F t c) (fun hm => hj (List.mem_cons_of_mem c hm)),
      hF t c (fun he => hj (he ▸ List.mem_cons_self c rest))]

/-- C8: resetTime and shiftActiveStartTime touch only the node at id and
its direct children: every node that is neither id nor a direct child of
id is left entirely unchanged by both calls. -/
theorem c8_reset_shift_one_level (t : TimerTree)
    (resetWallTime shift now : Rat) (id j : Int)
    (h1 : j ≠ id) (h2 : j ∉ (t.node id).childIds) :
    (t.resetTime resetWallTime id now).node j = t.node j
    ∧ (t.shiftActiveStartTime shift id).node j = t.node j := by
  constructor
  · show ((t.node id).childIds.foldl
      (fun acc c => acc.setNode c ((acc.node c).resetTime resetWallTime now))
      (t.setNode id ((t.node id).resetTime resetWallTime now))).node j = t.node j
    rw [TimerTree.node_foldl_ne _ (fun acc c hne => acc.node_setNode_ne _ hne) _ _ h2,
      t.node_setNode_ne _ h1]
  · show ((t.node id).childIds.foldl
      (fun acc c => acc.setNode c ((acc.node c).shiftActiveStartTime shift))
      (t.setNode id ((t.node id).shiftActiveStartTime shift))).node j = t.node j
    rw [TimerTree.node_foldl_ne _ (fun acc c hne => acc.node_setNode_ne _ hne) _ _ h2,
      t.node_setNode_ne _ h1]

/-- C8 witness: in the chain root -> "A" -> "B", resetting or shifting
node 1 ("A", whose one direct child is node 2) leaves node 0 (its
parent, the root) unchanged. -/
theorem c8_reset_shift_one_level_witness :
    ((0 : Int) ≠ 1 ∧ (0 : Int) ∉ (chainTree.node 1).childIds)
    ∧ ((chainTree.resetTime 1 1 5).node 0 = chainTree.node 0
      ∧ (chainTree.shiftActiveStartTime 1 1).node 0 = chainTree.node 0) :=
  ⟨⟨by decide, by decide⟩,
   c8_reset_shift_one_level chainTree 1 1 5 1 0 (by decide) (by decide)⟩

lemma findChild_eq_or (t : TimerTree) (lab : String) (l : List Int) :
    findChild t lab l = -1
      ∨ (findChild t lab l ∈ l ∧ (t.node (findChild t lab l)).label = lab) := by
  induction l with
  | nil => exact Or.inl rfl
  | cons c rest ih =>
    by_cases h : (t.node c).label = lab
    · right
      simp only [findChild]
      rw [if_pos h]
      exact ⟨List.mem_cons_self c rest, h⟩
    · rcases ih with h1 | ⟨h1, h2⟩
      · left
        simp only [findChild]
        rw [if_neg h]
        exact h1
      · right
        simp only [findChild]
        rw [if_neg h]
        exact ⟨List.mem_cons_of_mem c h1, h2⟩

lemma findChild_neg_all (t : TimerTree) (lab : String) (l : List Int)
    (hc : ∀ c ∈ l, 0 ≤ c) (h : findChild t lab l < 0) :
    ∀ c ∈ l, (t.node c).label ≠ lab := by
  induction l with
  | nil => intro c hc'; cases hc'
  | cons c rest ih =>
    by_cases hm : (t.node c).label = lab
    · exfalso
      have he : findChild t lab (c :: rest) = c := by
        simp only [findChild]; rw [if_pos hm]
      rw [he] at h
      exact absurd (hc c (List.mem_cons_self c rest)) (by omega)
    · intro x hx
      rcases List.mem_cons.mp hx with rfl | hx'
      · exact hm
      · have hf : findChild t lab (c :: rest) = findChild t lab rest := by
          simp only [findChild]; rw [if_neg hm]
        exact ih (fun y hy => hc y (List.mem_cons_of_mem c hy)) (hf ▸ h) x hx'

lemma findChild_append_of_ne (t : TimerTree) (lab : String) (l1 l2 : List Int)
    (h : ∀ c ∈ l1, (t.node c).label ≠ lab) :
    findChild t lab (l1 ++ l2) = findChild t lab l2 := by
  induction l1 with
  | nil => rfl
  | cons c rest ih =>
    simp only [List.cons_append, findChild]
    rw [if_neg (h c (List.mem_cons_self c rest))]
    exact ih (fun y hy => h y (List.mem_cons_of_mem c hy))

lemma findChild_congr (t t' : TimerTree) (lab : String) (l : List Int)
    (h : ∀ c ∈ l, (t'.node c).label = (t.node c).label) :
    findChild t' lab l = findChild t lab l := by
  induction l with
  | nil => rfl
  | cons c rest ih =>
    simp only [findChild]
    rw [h c (List.mem_cons_self c rest)]
    by_cases hm : (t.node c).label = lab
    · rw [if_pos hm, if_pos hm]
    · rw [if_neg hm, if_neg hm]
      exact ih (fun y hy => h y (List.mem_cons_of_mem c hy))

lemma createTimer_snd (t : TimerTree) (l : String) (g : List String)
    (w : String) : (t.createTimer l g w).2 = (t.timers.length : Int) := rfl

lemma createTimer_length (t : TimerTree) (l : String) (g : List String)
    (w : String) :
    (t.createTimer l g w).1.timers.length = t.timers.length + 1 := by
  show (TimerTree.setNode _ _ _).timers.length = _
  rw [TimerTree.length_setNode]
  simp

lemma createTimer_currentId (t : TimerTree) (l : String) (g : List String)
    (w : String) : (t.createTimer l g w).1.currentId = t.currentId := by
  show (TimerTree.setNode _ _ _).currentId = _
  rw [TimerTree.currentId_setNode]

lemma createTimer_node_ne (t : TimerTree) (l : String) (g : List String)
    (w : String) {j : Int} (h0 : 0 ≤ j) (h1 : j.toNat < t.timers.length)
    (hne : j ≠ t.currentId) :
    (t.createTimer l g w).1.node j = t.node j := by
  show (TimerTree.setNode
    { t with timers :=
        t.timers ++ [TimerData.mkNode t.currentId (t.timers.length : Int) l g w] }
    t.currentId _).node j = t.node j
  rw [TimerTree.node_setNode_ne _ _ hne, TimerTree.node_append_lt t _ h0 h1]

lemma createTimer_node_cur (t : TimerTree) (l : String) (g : List String)
    (w : String) (h0 : 0 ≤ t.currentId)
    (h1 : t.currentId.toNat < t.timers.length) :
    (t.createTimer l g w).1.node t.currentId
      = { t.node t.currentId with
          childIds := (t.node t.currentId).childIds ++ [(t.timers.length : Int)] } := by
  have happ : TimerTree.node
      { t with timers :=
          t.timers ++ [TimerData.mkNode t.currentId (t.timers.length : Int) l g w] }
      t.currentId = t.node t.currentId :=
    TimerTree.node_append_lt t _ h0 h1
  have hlen1 : t.currentId.toNat <
      (TimerTree.timers { t with timers :=
        t.timers ++ [TimerData.mkNode t.currentId (t.timers.length : Int) l g w] }).length := by
    simp
    omega
  show (TimerTree.setNode _ t.currentId _).node t.currentId = _
  rw [TimerTree.node_setNode_self _ _ h0 hlen1, happ]

lemma createTimer_node_new (t : TimerTree) (l : String) (g : List String)
    (w : String) (hc : t.currentId < (t.timers.length : Int)) :
    (t.createTimer l g w).1.node (t.timers.length : Int)
      = TimerData.mkNode t.currentId (t.timers.length : Int) l g w := by
  have hne : (t.timers.length : Int) ≠ t.currentId := by omega
  show (TimerTree.setNode _ t.currentId _).node _ = _
  rw [TimerTree.node_setNode_ne _ _ hne, TimerTree.node_append_last]

lemma initializeTimer_currentId (t : TimerTree) (l : String)
    (g : List String) (w : String) :
    (t.initializeTimer l g w).1.currentId = t.currentId := by
  simp only [TimerTree.initializeTimer]
  split
  · exact createTimer_currentId t l g w
  · rfl

lemma initializeTimer_length_ge (t : TimerTree) (l : String)
    (g : List String) (w : String) :
    t.timers.length ≤ (t.initializeTimer l g w).1.timers.length := by
  simp only [TimerTree.initializeTimer]
  split
  · rw [createTimer_length]
    omega
  · exact Nat.le_refl _

lemma sameShape_refl (d : TimerData) : sameShape d d := ⟨rfl, rfl, rfl, rfl⟩

lemma sameShape_trans {d e f : TimerData} (h1 : sameShape d e)
    (h2 : sameShape e f) : sameShape d f :=
  ⟨h1.1.trans h2.1, h1.2.1.trans h2.2.1, h1.2.2.1.trans h2.2.2.1,
   h1.2.2.2.trans h2.2.2.2⟩

lemma samePos_refl (d : TimerData) : samePos d d := ⟨rfl, rfl, rfl⟩

lemma samePos_trans {d e f : TimerData} (h1 : samePos d e)
    (h2 : samePos e f) : samePos d f :=
  ⟨h1.1.trans h2.1, h1.2.1.trans h2.2.1, h1.2.2.trans h2.2.2⟩

lemma samePos_of_sameShape {d e : TimerData} (h : sameShape d e) :
    samePos d e := ⟨h.1, h.2.1, h.2.2.1⟩

lemma node_setNode_cases (t : TimerTree) (c : Int) (d : TimerData)
    (j : Int) :
    (t.setNode c d).node j = t.node j
    ∨ ((t.setNode c d).node j = d ∧ j = c ∧ 0 ≤ c
        ∧ c.toNat < t.timers.length) := by
  by_cases hjc : j = c
  · subst hjc
    by_cases h0 : 0 ≤ j
    · by_cases h1 : j.toNat < t.timers.length
      · exact Or.inr ⟨t.node_setNode_self d h0 h1, rfl, h0, h1⟩
      · left
        unfold TimerTree.setNode TimerTree.node
        simp only [if_pos h0]
        show (t.timers.set j.toNat d).getD j.toNat default
          = t.timers.getD j.toNat default
        rw [List.set_eq_of_length_le (by omega)]
    · left
      unfold TimerTree.setNode
      rw [if_neg h0]
  · exact Or.inl (t.node_setNode_ne d hjc)

lemma setNode_shape (t : TimerTree) (c : Int) (d : TimerData)
    (hd : sameShape d (t.node c)) (j : Int) :
    sameShape ((t.setNode c d).node j) (t.node j) := by
  rcases node_setNode_cases t c d j with h | ⟨h, rfl, _, _⟩
  · rw [h]; exact sameShape_refl _
  · rw [h]; exact hd

lemma foldl_shape (g : TimerData → TimerData)
    (hg : ∀ d, sameShape (g d) d) (l : List Int) (t : TimerTree) (j : Int) :
    sameShape
      ((l.foldl (fun acc c => acc.setNode c (g (acc.node c))) t).node j)
      (t.node j) := by
  induction l generalizing t with
  | nil => exact sameShape_refl _
  | cons c rest ih =>
    rw [List.foldl_cons]
    exact sameShape_trans (ih (t.setNode c (g (t.node c))))
      (setNode_shape t c _ (hg (t.node c)) j)

lemma foldl_setNode_length (g : TimerData → TimerData) (l : List Int)
    (t : TimerTree) :
    (l.foldl (fun acc c => acc.setNode c (g (acc.node c))) t).timers.length
      = t.timers.length
    ∧ (l.foldl (fun acc c => acc.setNode c (g (acc.node c))) t).currentId
      = t.currentId := by
  induction l generalizing t with
  | nil => exact ⟨rfl, rfl⟩
  | cons c rest ih =>
    rw [List.foldl_cons]
    obtain ⟨h1, h2⟩ := ih (t.setNode c (g (t.node c)))
    rw [h1, h2, TimerTree.length_setNode, TimerTree.currentId_setNode]
    exact ⟨rfl, rfl⟩

lemma wf_setNode_shape (t : TimerTree) (c : Int) (d : TimerData)
    (hd : sameShape d (t.node c)) (hwf : WF t) : WF (t.setNode c d) := by
  intro i hi
  rw [TimerTree.length_setNode] at hi
  have hOK := hwf i hi
  have hsh : ∀ j : Int, sameShape ((t.setNode c d).node j) (t.node j) :=
    setNode_shape t c d hd
  obtain ⟨hid, hp1, hp2, hch⟩ := hOK
  obtain ⟨sid, spar, _, sch⟩ := hsh (i : Int)
  refine ⟨sid.trans hid, ?_, ?_, ?_⟩
  · rw [spar]; exact hp1
  · rw [spar]; exact hp2
  · intro x hx
    rw [sch] at hx
    obtain ⟨hgt, hlt, hpar⟩ := hch x hx
    refine ⟨hgt, ?_, ?_⟩
    · rw [TimerTree.length_setNode]; exact hlt
    · rw [(hsh x).2.1]; exact hpar

lemma wf_createTimer (t : TimerTree) (l : String) (g : List String)
    (w : String) (hwf : WF t) (hc1 : -1 ≤ t.currentId)
    (hc2 : t.currentId < (t.timers.length : Int)) :
    WF (t.createTimer l g w).1 := by
  have hrl : (t.createTimer l g w).1.timers.length = t.timers.length + 1 :=
    createTimer_length t l g w
  intro i hi
  rw [hrl] at hi
  by_cases hicur : (i : Int) = t.currentId
  · have h0 : (0 : Int) ≤ t.currentId := by omega
    have h1 : t.currentId.toNat < t.timers.length := by omega
    have hnode : (t.createTimer l g w).1.node (i : Int)
        = { t.node t.currentId with
            childIds := (t.node t.currentId).childIds
              ++ [(t.timers.length : Int)] } := by
      rw [hicur]; exact createTimer_node_cur t l g w h0 h1
    have hOK := hwf t.currentId.toNat h1
    have hcast : ((t.currentId.toNat : Nat) : Int) = t.currentId := by omega
    unfold nodeOK at hOK
    rw [hcast] at hOK
    unfold nodeOK
    rw [hnode]
    obtain ⟨hid, hp1, hp2, hch⟩ := hOK
    refine ⟨?_, ?_, ?_, ?_⟩
    · show (t.node t.currentId).id = (i : Int)
      rw [hicur]; exact hid
    · show -1 ≤ (t.node t.currentId).parentId
      exact hp1
    · show (t.node t.currentId).parentId < (i : Int)
      rw [hicur]; exact hp2
    · intro c hc
      rcases List.mem_append.mp hc with hcl | hcr
      · obtain ⟨hgt, hlt, hpar⟩ := hch c hcl
        have hc0 : (0 : Int) ≤ c := by omega
        have hcne : c ≠ t.currentId := by omega
        refine ⟨by rw [hicur]; exact hgt, by rw [hrl]; omega, ?_⟩
        rw [createTimer_node_ne t l g w hc0 (by omega) hcne, hicur]
        exact hpar
      · have hceq : c = (t.timers.length : Int) := List.mem_singleton.mp hcr
        subst hceq
        refine ⟨by rw [hicur]; exact hc2, by rw [hrl]; omega, ?_⟩
        rw [createTimer_node_new t l g w hc2]
        show t.currentId = (i : Int)
        omega
  · by_cases hiold : i < t.timers.length
    · have h0 : (0 : Int) ≤ (i : Int) := by omega
      have hnode : (t.createTimer l g w).1.node (i : Int) = t.node (i : Int) :=
        createTimer_node_ne t l g w h0 (by omega) hicur
      have hOK := hwf i hiold
      unfold nodeOK at hOK ⊢
      rw [hnode]
      obtain ⟨hid, hp1, hp2, hch⟩ := hOK
      refine ⟨hid, hp1, hp2, ?_⟩
      intro c hc
      obtain ⟨hgt, hlt, hpar⟩ := hch c hc
      have hc0 : (0 : Int) ≤ c := by omega
      refine ⟨hgt, by rw [hrl]; omega, ?_⟩
      by_cases hcc : c = t.currentId
      · have hcur0 : (0 : Int) ≤ t.currentId := by omega
        have hcur1 : t.currentId.toNat < t.timers.length := by omega
        rw [hcc, createTimer_node_cur t l g w hcur0 hcur1]
        show (t.node t.currentId).parentId = (i : Int)
        rw [← hcc]; exact hpar
      · rw [createTimer_node_ne t l g w hc0 (by omega) hcc]
        exact hpar
    · have hieq : i = t.timers.length := by omega
      subst hieq
      unfold nodeOK
      rw [createTimer_node_new t l g w hc2]
      refine ⟨rfl, hc1, hc2, ?_⟩
      intro c hc
      exact absurd hc (List.not_mem_nil c)

lemma wf_of_shape (t t' : TimerTree)
    (hlen : t'.timers.length = t.timers.length)
    (hsh : ∀ j : Int, sameShape (t'.node j) (t.node j)) (hwf : WF t) :
    WF t' := by
  intro i hi
  rw [hlen] at hi
  have hOK := hwf i hi
  unfold nodeOK at hOK ⊢
  obtain ⟨hid, hp1, hp2, hch⟩ := hOK
  obtain ⟨sid, spar, -, sch⟩ := hsh (i : Int)
  refine ⟨sid.trans hid, by rw [spar]; exact hp1, by rw [spar]; exact hp2, ?_⟩
  intro c hc
  rw [sch] at hc
  obtain ⟨hgt, hlt, hpar⟩ := hch c hc
  exact ⟨hgt, by rw [hlen]; exact hlt, by rw [(hsh c).2.1]; exact hpar⟩

lemma shiftActiveStartTime_shape (s : Rat) (d : TimerData) :
    sameShape (d.shiftActiveStartTime s) d := by
  unfold TimerData.shiftActiveStartTime
  split <;> exact ⟨rfl, rfl, rfl, rfl⟩

lemma initializeTimer_node_samePos (t : TimerTree) (l : String)
    (g : List String) (w : String) {j : Int} (h0 : 0 ≤ j)
    (h1 : j.toNat < t.timers.length) :
    samePos ((t.initializeTimer l g w).1.node j) (t.node j) := by
  simp only [TimerTree.initializeTimer]
  split
  · by_cases hcc : j = t.currentId
    · subst hcc
      rw [createTimer_node_cur t l g w h0 h1]
      exact ⟨rfl, rfl, rfl⟩
    · rw [createTimer_node_ne t l g w h0 h1 hcc]
      exact samePos_refl _
  · exact samePos_refl _

lemma wf_initializeTimer (t : TimerTree) (l : String) (g : List String)
    (w : String) (hwf : WF t) (hc1 : -1 ≤ t.currentId)
    (hc2 : t.currentId < (t.timers.length : Int)) :
    WF (t.initializeTimer l g w).1 := by
  simp only [TimerTree.initializeTimer]
  split
  · exact wf_createTimer t l g w hwf hc1 hc2
  · exact hwf

lemma initializeTimer_ret (t : TimerTree) (l : String) (g : List String)
    (w : String) (hwf : WF t) (hc2 : t.currentId < (t.timers.length : Int)) :
    0 ≤ (t.initializeTimer l g w).2
    ∧ (t.initializeTimer l g w).2
        < ((t.initializeTimer l g w).1.timers.length : Int)
    ∧ (0 ≤ t.currentId →
        ((t.initializeTimer l g w).1.node
          (t.initializeTimer l g w).2).parentId = t.currentId) := by
  simp only [TimerTree.initializeTimer]
  by_cases h : t.getChildId l < 0
  · simp only [if_pos h]
    rw [createTimer_snd, createTimer_length]
    refine ⟨by omega, by omega, ?_⟩
    intro _
    rw [createTimer_node_new t l g w hc2]
    rfl
  · simp only [if_neg h]
    simp only [TimerTree.getChildId] at h ⊢
    rcases findChild_eq_or t l (t.node t.currentId).childIds with hneg | ⟨hmem, -⟩
    · rw [hneg] at h
      omega
    · have hcur0 : (0 : Int) ≤ t.currentId := by
        by_contra hneg'
        rw [t.node_neg (by omega)] at hmem
        exact absurd hmem (List.not_mem_nil _)
      have h1 : t.currentId.toNat < t.timers.length := by omega
      have hOK := hwf t.currentId.toNat h1
      unfold nodeOK at hOK
      have hcast : ((t.currentId.toNat : Nat) : Int) = t.currentId := by omega
      rw [hcast] at hOK
      obtain ⟨-, -, -, hch⟩ := hOK
      obtain ⟨hgt, hlt, hpar⟩ := hch _ hmem
      exact ⟨by omega, hlt, fun _ => hpar⟩

lemma node_id_cases (t : TimerTree) (hwf : WF t) (id : Int) :
    (0 ≤ id ∧ id < (t.timers.length : Int) ∧ (t.node id).id = id)
    ∨ (t.node id).id = -1 := by
  by_cases h0 : 0 ≤ id
  · by_cases h1 : id.toNat < t.timers.length
    · left
      have hOK := hwf id.toNat h1
      unfold nodeOK at hOK
      have hcast : ((id.toNat : Nat) : Int) = id := by omega
      rw [hcast] at hOK
      exact ⟨h0, by omega, hOK.1⟩
    · right
      rw [t.node_oob h0 (by omega)]
      rfl
  · right
    rw [t.node_neg (by omega)]
    rfl

lemma node_parent_bounds (t : TimerTree) (hwf : WF t) {cur : Int}
    (hc2 : cur < (t.timers.length : Int)) :
    -1 ≤ (t.node cur).parentId
    ∧ (t.node cur).parentId < (t.timers.length : Int) := by
  by_cases h0 : 0 ≤ cur
  · have h1 : cur.toNat < t.timers.length := by omega
    have hOK := hwf cur.toNat h1
    unfold nodeOK at hOK
    have hcast : ((cur.toNat : Nat) : Int) = cur := by omega
    rw [hcast] at hOK
    refine ⟨hOK.2.1, ?_⟩
    have := hOK.2.2.1
    omega
  · rw [t.node_neg (by omega)]
    constructor
    · show (-1 : Int) ≤ -1
      omega
    · show (-1 : Int) < (t.timers.length : Int)
      omega

lemma resetTime_shape (t : TimerTree) (r : Rat) (i : Int) (n : Rat)
    (j : Int) : sameShape ((t.resetTime r i n).node j) (t.node j) :=
  sameShape_trans
    (foldl_shape (fun d => d.resetTime r n) (fun _ => ⟨rfl, rfl, rfl, rfl⟩)
      (t.node i).childIds (t.setNode i ((t.node i).resetTime r n)) j)
    (setNode_shape t i ((t.node i).resetTime r n) ⟨rfl, rfl, rfl, rfl⟩ j)

lemma resetTime_len_cur (t : TimerTree) (r : Rat) (i : Int) (n : Rat) :
    (t.resetTime r i n).timers.length = t.timers.length
    ∧ (t.resetTime r i n).currentId = t.currentId := by
  obtain ⟨h1, h2⟩ := foldl_setNode_length (fun d => d.resetTime r n)
    (t.node i).childIds (t.setNode i ((t.node i).resetTime r n))
  exact ⟨h1.trans (t.length_setNode i _), h2.trans (t.currentId_setNode i _)⟩

lemma shiftTime_shape (t : TimerTree) (s : Rat) (i : Int) (j : Int) :
    sameShape ((t.shiftActiveStartTime s i).node j) (t.node j) :=
  sameShape_trans
    (foldl_shape (fun d => d.shiftActiveStartTime s)
      (fun d => shiftActiveStartTime_shape s d)
      (t.node i).childIds (t.setNode i ((t.node i).shiftActiveStartTime s)) j)
    (setNode_shape t i _ (shiftActiveStartTime_shape s _) j)

lemma shiftTime_len_cur (t : TimerTree) (s : Rat) (i : Int) :
    (t.shiftActiveStartTime s i).timers.length = t.timers.length
    ∧ (t.shiftActiveStartTime s i).currentId = t.currentId := by
  obtain ⟨h1, h2⟩ := foldl_setNode_length (fun d => d.shiftActiveStartTime s)
    (t.node i).childIds (t.setNode i ((t.node i).shiftActiveStartTime s))
  exact ⟨h1.trans (t.length_setNode i _), h2.trans (t.currentId_setNode i _)⟩

lemma treeInv_new (now : Rat) : TreeInv (TimerTree.new now) := by
  refine ⟨?_, ?_, ?_⟩
  · intro i hi
    have hi0 : i = 0 := by
      have hlen : (TimerTree.new now).timers.length = 1 := rfl
      omega
    subst hi0
    unfold nodeOK
    refine ⟨rfl, ?_, ?_, ?_⟩
    · show (-1 : Int) ≤ -1
      omega
    · show (-1 : Int) < ((0 : Nat) : Int)
      omega
    · intro c hc
      exact absurd hc (List.not_mem_nil c)
  · show (-1 : Int) ≤ -1
    omega
  · show (-1 : Int) < ((1 : Nat) : Int)
    omega

lemma treeInv_step (t : TimerTree) (op : Op) (h : TreeInv t) :
    TreeInv (t.step op) := by
  obtain ⟨hwf, hc1, hc2⟩ := h
  cases op with
  | initTimer l g w =>
    refine ⟨wf_initializeTimer t l g w hwf hc1 hc2, ?_, ?_⟩
    · show -1 ≤ (t.initializeTimer l g w).1.currentId
      rw [initializeTimer_currentId]
      exact hc1
    · show (t.initializeTimer l g w).1.currentId
        < ((t.initializeTimer l g w).1.timers.length : Int)
      rw [initializeTimer_currentId]
      have := initializeTimer_length_ge t l g w
      omega
  | startI id now =>
    refine ⟨?_, ?_, ?_⟩
    · exact wf_setNode_shape t id ((t.node id).start now).1
        ⟨rfl, rfl, rfl, rfl⟩ hwf
    · show -1 ≤ (t.node id).id
      rcases node_id_cases t hwf id with ⟨h0, -, hid⟩ | hid <;> rw [hid] <;> omega
    · show (t.node id).id
        < ((t.setNode id ((t.node id).start now).1).timers.length : Int)
      rw [TimerTree.length_setNode]
      rcases node_id_cases t hwf id with ⟨-, h1, hid⟩ | hid <;> rw [hid] <;> omega
  | startL l now =>
    have hret := initializeTimer_ret t l [] "" hwf hc2
    refine ⟨?_, ?_, ?_⟩
    · exact wf_setNode_shape
        { (t.initializeTimer l [] "").1 with
            currentId := (t.initializeTimer l [] "").2 }
        (t.initializeTimer l [] "").2 _ ⟨rfl, rfl, rfl, rfl⟩
        (wf_initializeTimer t l [] "" hwf hc1 hc2)
    · show -1 ≤ (TimerTree.setNode _ _ _).currentId
      rw [TimerTree.currentId_setNode]
      show -1 ≤ (t.initializeTimer l [] "").2
      have := hret.1
      omega
    · show (TimerTree.setNode _ _ _).currentId
        < ((TimerTree.setNode _ _ _).timers.length : Int)
      rw [TimerTree.currentId_setNode, TimerTree.length_setNode]
      exact hret.2.1
  | stopI id now =>
    have hpb := node_parent_bounds t hwf hc2
    refine ⟨?_, hpb.1, ?_⟩
    · exact wf_setNode_shape t t.currentId ((t.node t.currentId).stop now).1
        ⟨rfl, rfl, rfl, rfl⟩ hwf
    · show (t.node t.currentId).parentId
        < ((t.setNode t.currentId ((t.node t.currentId).stop now).1).timers.length : Int)
      rw [TimerTree.length_setNode]
      exact hpb.2
  | stopL l now =>
    have hpb := node_parent_bounds t hwf hc2
    refine ⟨?_, hpb.1, ?_⟩
    · exact wf_setNode_shape t t.currentId ((t.node t.currentId).stop now).1
        ⟨rfl, rfl, rfl, rfl⟩ hwf
    · show (t.node t.currentId).parentId
        < ((t.setNode t.currentId ((t.node t.currentId).stop now).1).timers.length : Int)
      rw [TimerTree.length_setNode]
      exact hpb.2
  | reset r i n =>
    obtain ⟨hl, hcu⟩ := resetTime_len_cur t r i n
    refine ⟨wf_of_shape t _ hl (resetTime_shape t r i n) hwf, ?_, ?_⟩
    · show -1 ≤ (t.resetTime r i n).currentId
      rw [hcu]
      exact hc1
    · show (t.resetTime r i n).currentId < ((t.resetTime r i n).timers.length : Int)
      rw [hcu, hl]
      exact hc2
  | shift s i =>
    obtain ⟨hl, hcu⟩ := shiftTime_len_cur t s i
    refine ⟨wf_of_shape t _ hl (shiftTime_shape t s i) hwf, ?_, ?_⟩
    · show -1 ≤ (t.shiftActiveStartTime s i).currentId
      rw [hcu]
      exact hc1
    · show (t.shiftActiveStartTime s i).currentId
        < ((t.shiftActiveStartTime s i).timers.length : Int)
      rw [hcu, hl]
      exact hc2

lemma treeInv_run (ops : List Op) :
    ∀ t : TimerTree, TreeInv t → TreeInv (t.run ops) := by
  induction ops with
  | nil => intro t h; exact h
  | cons op rest ih => intro t h; exact ih _ (treeInv_step t op h)

lemma reachable_treeInv {t : TimerTree} (h : Reachable t) : TreeInv t := by
  obtain ⟨now, ops, rfl⟩ := h
  exact treeInv_run ops _ (treeInv_new now)

lemma step_length_ge (t : TimerTree) (op : Op) :
    t.timers.length ≤ (t.step op).timers.length := by
  cases op with
  | initTimer l g w => exact initializeTimer_length_ge t l g w
  | startI id now =>
    show t.timers.length ≤ (TimerTree.setNode _ _ _).timers.length
    rw [TimerTree.length_setNode]
  | startL l now =>
    show t.timers.length ≤ (TimerTree.setNode _ _ _).timers.length
    rw [TimerTree.length_setNode]
    exact initializeTimer_length_ge t l [] ""
  | stopI id now =>
    show t.timers.length ≤ (TimerTree.setNode _ _ _).timers.length
    rw [TimerTree.length_setNode]
  | stopL l now =>
    show t.timers.length ≤ (TimerTree.setNode _ _ _).timers.length
    rw [TimerTree.length_setNode]
  | reset r i n => exact (resetTime_len_cur t r i n).1.ge
  | shift s i => exact (shiftTime_len_cur t s i).1.ge

lemma step_node_samePos (t : TimerTree) (op : Op) {j : Int} (h0 : 0 ≤ j)
    (h1 : j.toNat < t.timers.length) :
    samePos ((t.step op).node j) (t.node j) := by
  cases op with
  | initTimer l g w => exact initializeTimer_node_samePos t l g w h0 h1
  | startI id now =>
    exact samePos_of_sameShape
      (setNode_shape t id ((t.node id).start now).1 ⟨rfl, rfl, rfl, rfl⟩ j)
  | startL l now =>
    refine samePos_trans (samePos_of_sameShape ?_)
      (initializeTimer_node_samePos t l [] "" h0 h1)
    exact setNode_shape
      { (t.initializeTimer l [] "").1 with
          currentId := (t.initializeTimer l [] "").2 }
      (t.initializeTimer l [] "").2
      ((TimerTree.node
          { (t.initializeTimer l [] "").1 with
              currentId := (t.initializeTimer l [] "").2 }
          (t.initializeTimer l [] "").2).start now).1
      ⟨rfl, rfl, rfl, rfl⟩ j
  | stopI id now =>
    exact samePos_of_sameShape
      (setNode_shape t t.currentId ((t.node t.currentId).stop now).1
        ⟨rfl, rfl, rfl, rfl⟩ j)
  | stopL l now =>
    exact samePos_of_sameShape
      (setNode_shape t t.currentId ((t.node t.currentId).stop now).1
        ⟨rfl, rfl, rfl, rfl⟩ j)
  | reset r i n => exact samePos_of_sameShape (resetTime_shape t r i n j)
  | shift s i => exact samePos_of_sameShape (shiftTime_shape t s i j)

/-- C9: in every reachable tree state the ids are dense and stable: the
node at index i has id i; initializeTimer gives a newly created node the
id equal to the length of the sequence before the push and parent equal
to current_id (and creates nothing when the label already exists); and
no operation removes, reorders or re-ids existing nodes. -/
theorem c9_ids_dense_stable (t : TimerTree) (hr : Reachable t) :
    C9Spec t := by
  obtain ⟨hwf, hc1, hc2⟩ := reachable_treeInv hr
  have hids : ∀ i < t.timers.length, (t.node (i : Int)).id = (i : Int) := by
    intro i hi
    have hOK := hwf i hi
    unfold nodeOK at hOK
    exact hOK.1
  refine ⟨hids, ?_, ?_⟩
  · intro l g w
    constructor
    · intro hcre
      have he : t.initializeTimer l g w = t.createTimer l g w := by
        unfold TimerTree.initializeTimer
        rw [if_pos hcre]
      rw [he]
      refine ⟨createTimer_snd t l g w, createTimer_length t l g w, ?_, ?_⟩
      · rw [createTimer_node_new t l g w hc2]
        rfl
      · rw [createTimer_node_new t l g w hc2]
        rfl
    · intro hnf
      have he : t.initializeTimer l g w = (t, t.getChildId l) := by
        unfold TimerTree.initializeTimer
        rw [if_neg hnf]
      rw [he]
  · intro op
    refine ⟨step_length_ge t op, ?_⟩
    intro i hi
    have hp := step_node_samePos t op (j := (i : Int)) (by omega) (by omega)
    rw [hp.1]
    exact hids i hi

/-- C9 witness: the chain tree is reachable by three public calls and
satisfies the dense-and-stable-ids property. -/
theorem c9_ids_dense_stable_witness :
    Reachable chainTree ∧ C9Spec chainTree :=
  ⟨⟨0, [Op.startI 0 0, Op.startL "A" 0, Op.startL "B" 0], rfl⟩,
   c9_ids_dense_stable chainTree
     ⟨0, [Op.startI 0 0, Op.startL "A" 0, Op.startL "B" 0], rfl⟩⟩

lemma startLabel_facts (t : TimerTree) (l : String) (now : Rat) :
    (t.startLabel l now).1.currentId = (t.initializeTimer l [] "").2
    ∧ (t.startLabel l now).1.timers.length
        = (t.initializeTimer l [] "").1.timers.length
    ∧ ∀ j : Int, sameShape ((t.startLabel l now).1.node j)
        ((t.initializeTimer l [] "").1.node j) := by
  refine ⟨?_, ?_, ?_⟩
  · show (TimerTree.setNode _ _ _).currentId = _
    rw [TimerTree.currentId_setNode]
  · show (TimerTree.setNode _ _ _).timers.length = _
    rw [TimerTree.length_setNode]
  · intro j
    exact setNode_shape
      { (t.initializeTimer l [] "").1 with
          currentId := (t.initializeTimer l [] "").2 }
      (t.initializeTimer l [] "").2
      ((TimerTree.node
          { (t.initializeTimer l [] "").1 with
              currentId := (t.initializeTimer l [] "").2 }
          (t.initializeTimer l [] "").2).start now).1
      ⟨rfl, rfl, rfl, rfl⟩ j

lemma stopId_facts (t : TimerTree) (id : Int) (now : Rat) :
    (t.stopId id now).1.currentId = (t.node t.currentId).parentId
    ∧ (t.stopId id now).1.timers.length = t.timers.length
    ∧ ∀ j : Int, sameShape ((t.stopId id now).1.node j) (t.node j) := by
  refine ⟨rfl, ?_, ?_⟩
  · show (TimerTree.setNode _ _ _).timers.length = _
    rw [TimerTree.length_setNode]
  · intro j
    exact setNode_shape t t.currentId ((t.node t.currentId).stop now).1
      ⟨rfl, rfl, rfl, rfl⟩ j

lemma runProg_spec (now : Rat) (p : Prog) :
    ∀ t : TimerTree, TreeInv t → 0 ≤ t.currentId →
      (runProg now t p).currentId = t.currentId
      ∧ TreeInv (runProg now t p)
      ∧ t.timers.length ≤ (runProg now t p).timers.length
      ∧ ∀ j : Int, 0 ≤ j → j.toNat < t.timers.length →
          samePos ((runProg now t p).node j) (t.node j) := by
  induction p with
  | nil =>
    intro t hinv _
    exact ⟨rfl, hinv, Nat.le_refl _, fun j _ _ => samePos_refl _⟩
  | node l inner rest ih1 ih2 =>
    intro t hinv hcur
    obtain ⟨hwf, hc1, hc2⟩ := hinv
    have hret := initializeTimer_ret t l [] "" hwf hc2
    have hsl := startLabel_facts t l now
    have hInv1 : TreeInv ((t.startLabel l now).1) :=
      treeInv_step t (Op.startL l now) ⟨hwf, hc1, hc2⟩
    have hcur1 : 0 ≤ ((t.startLabel l now).1).currentId := by
      rw [hsl.1]
      exact hret.1
    have hspec2 := ih1 ((t.startLabel l now).1) hInv1 hcur1
    have hk2 : (runProg now ((t.startLabel l now).1) inner).currentId
        = (t.initializeTimer l [] "").2 := by
      rw [hspec2.1, hsl.1]
    have hst := stopId_facts (runProg now ((t.startLabel l now).1) inner)
      (runProg now ((t.startLabel l now).1) inner).currentId now
    have hklen : ((t.initializeTimer l [] "").2).toNat
        < ((t.startLabel l now).1).timers.length := by
      have ha := hret.2.1
      have hb := hsl.2.1
      omega
    have hcur3 : ((runProg now ((t.startLabel l now).1) inner).stopId
        (runProg now ((t.startLabel l now).1) inner).currentId now).1.currentId
        = t.currentId := by
      rw [hst.1, hk2]
      have hsp2k := hspec2.2.2.2 (t.initializeTimer l [] "").2 hret.1 hklen
      rw [hsp2k.2.1, (hsl.2.2 (t.initializeTimer l [] "").2).2.1]
      exact hret.2.2 hcur
    have hInv3 : TreeInv (((runProg now ((t.startLabel l now).1) inner).stopId
        (runProg now ((t.startLabel l now).1) inner).currentId now).1) :=
      treeInv_step (runProg now ((t.startLabel l now).1) inner)
        (Op.stopI (runProg now ((t.startLabel l now).1) inner).currentId now)
        hspec2.2.1
    have hcur3' : 0 ≤ (((runProg now ((t.startLabel l now).1) inner).stopId
        (runProg now ((t.startLabel l now).1) inner).currentId now).1).currentId := by
      rw [hcur3]
      exact hcur
    have hrest := ih2 (((runProg now ((t.startLabel l now).1) inner).stopId
        (runProg now ((t.startLabel l now).1) inner).currentId now).1)
      hInv3 hcur3'
    simp only [runProg]
    refine ⟨?_, hrest.2.1, ?_, ?_⟩
    · rw [hrest.1, hcur3]
    · have ha : t.timers.length ≤ ((t.startLabel l now).1).timers.length := by
        rw [hsl.2.1]
        exact initializeTimer_length_ge t l [] ""
      have hb := hspec2.2.2.1
      have hcq := hst.2.1
      have hd := hrest.2.2.1
      omega
    · intro j hj0 hj1
      have s1 : samePos (((t.startLabel l now).1).node j) (t.node j) :=
        step_node_samePos t (Op.startL l now) hj0 hj1
      have hj1' : j.toNat < ((t.startLabel l now).1).timers.length := by
        have ha : t.timers.length ≤ ((t.startLabel l now).1).timers.length := by
          rw [hsl.2.1]
          exact initializeTimer_length_ge t l [] ""
        omega
      have s2 := hspec2.2.2.2 j hj0 hj1'
      have s3 : samePos ((((runProg now ((t.startLabel l now).1) inner).stopId
          (runProg now ((t.startLabel l now).1) inner).currentId now).1).node j)
          ((runProg now ((t.startLabel l now).1) inner).node j) :=
        samePos_of_sameShape (hst.2.2 j)
      have hj2' : j.toNat < (((runProg now ((t.startLabel l now).1) inner).stopId
          (runProg now ((t.startLabel l now).1) inner).currentId now).1).timers.length := by
        have ha := hst.2.1
        have hb := hspec2.2.2.1
        omega
      have s4 := hrest.2.2.2 j hj0 hj2'
      exact samePos_trans s4 (samePos_trans s3 (samePos_trans s2 s1))

/-- C6: running any balanced, strictly LIFO-nested sequence of start and
stop calls (each start opens a timer nested in the current one, each
stop stops the most recently started not-yet-stopped timer) from a
well-formed state with an in-range cursor brings current_id back to the
value it had before the sequence began. -/
theorem c6_lifo_restores_cursor (t : TimerTree) (now : Rat) (p : Prog)
    (h1 : TreeInv t) (h2 : 0 ≤ t.currentId) :
    (runProg now t p).currentId = t.currentId :=
  (runProg_spec now p t h1 h2).1

/-- C6 witness: a doubly nested start/stop pair run from the chain tree
leaves the cursor where it was. -/
theorem c6_lifo_restores_cursor_witness :
    (TreeInv chainTree ∧ 0 ≤ chainTree.currentId)
    ∧ (runProg 0 chainTree
        (Prog.node "X" (Prog.node "Y" Prog.nil Prog.nil) Prog.nil)).currentId
      = chainTree.currentId :=
  ⟨⟨by decide, by decide⟩,
   c6_lifo_restores_cursor chainTree 0
     (Prog.node "X" (Prog.node "Y" Prog.nil Prog.nil) Prog.nil)
     (by decide) (by decide)⟩

/-- C5: calling initializeTimer twice with the same label, with the
cursor unchanged in between (initializeTimer never moves it), returns
the same id both times, and the timer sequence does not grow between the
two calls, whatever groups or work-unit label the second call passes. -/
theorem c5_initializeTimer_idempotent (t : TimerTree) (label : String)
    (g1 : List String) (w1 : String) (g2 : List String) (w2 : String)
    (hwf : WF t) (h0 : 0 ≤ t.currentId)
    (h1 : t.currentId < (t.timers.length : Int)) :
    ((t.initializeTimer label g1 w1).1.initializeTimer label g2 w2).2
      = (t.initializeTimer label g1 w1).2
    ∧ ((t.initializeTimer label g1 w1).1.initializeTimer
        label g2 w2).1.timers.length
      = (t.initializeTimer label g1 w1).1.timers.length := by
  by_cases hc : t.getChildId label < 0
  · have he : t.initializeTimer label g1 w1 = t.createTimer label g1 w1 := by
      unfold TimerTree.initializeTimer
      rw [if_pos hc]
    have hlen : t.currentId.toNat < t.timers.length := by omega
    have hOK := hwf t.currentId.toNat hlen
    unfold nodeOK at hOK
    have hcast : ((t.currentId.toNat : Nat) : Int) = t.currentId := by omega
    rw [hcast] at hOK
    obtain ⟨-, -, -, hch⟩ := hOK
    have hposc : ∀ c ∈ (t.node t.currentId).childIds, 0 ≤ c := by
      intro c hcm
      have := (hch c hcm).1
      omega
    have hneq : ∀ c ∈ (t.node t.currentId).childIds,
        (t.node c).label ≠ label :=
      findChild_neg_all t label (t.node t.currentId).childIds hposc hc
    have hneq' : ∀ c ∈ (t.node t.currentId).childIds,
        ((t.createTimer label g1 w1).1.node c).label ≠ label := by
      intro c hcm
      have hcb := hch c hcm
      have hb1 := hcb.1
      have hb2 := hcb.2.1
      rw [createTimer_node_ne t label g1 w1 (by omega) (by omega) (by omega)]
      exact hneq c hcm
    have hgc : (t.createTimer label g1 w1).1.getChildId label
        = (t.timers.length : Int) := by
      show findChild (t.createTimer label g1 w1).1 label
        ((t.createTimer label g1 w1).1.node
          ((t.createTimer label g1 w1).1.currentId)).childIds = _
      rw [createTimer_currentId, createTimer_node_cur t label g1 w1 h0 hlen]
      show findChild (t.createTimer label g1 w1).1 label
        ((t.node t.currentId).childIds ++ [(t.timers.length : Int)]) = _
      rw [findChild_append_of_ne _ label _ _ hneq']
      simp only [findChild]
      rw [createTimer_node_new t label g1 w1 h1]
      have hlab : (TimerData.mkNode t.currentId (t.timers.length : Int)
          label g1 w1).label = label := rfl
      rw [if_pos hlab]
    have he2 : (t.createTimer label g1 w1).1.initializeTimer label g2 w2
        = ((t.createTimer label g1 w1).1,
           (t.createTimer label g1 w1).1.getChildId label) := by
      unfold TimerTree.initializeTimer
      rw [if_neg (by rw [hgc]; omega)]
    rw [he, he2]
    exact ⟨by rw [hgc, createTimer_snd], rfl⟩
  · have he : t.initializeTimer label g1 w1 = (t, t.getChildId label) := by
      unfold TimerTree.initializeTimer
      rw [if_neg hc]
    have he2 : t.initializeTimer label g2 w2 = (t, t.getChildId label) := by
      unfold TimerTree.initializeTimer
      rw [if_neg hc]
    rw [he]
    rw [he2]
    exact ⟨rfl, rfl⟩

/-- C5 witness: initializing "Z" twice under the chain tree's cursor
returns the same id and the sequence length does not change between the
calls. -/
theorem c5_initializeTimer_idempotent_witness :
    (WF chainTree ∧ 0 ≤ chainTree.currentId
      ∧ chainTree.currentId < (chainTree.timers.length : Int))
    ∧ (((chainTree.initializeTimer "Z" [] "").1.initializeTimer
          "Z" ["G"] "u").2
        = (chainTree.initializeTimer "Z" [] "").2
      ∧ ((chainTree.initializeTimer "Z" [] "").1.initializeTimer
          "Z" ["G"] "u").1.timers.length
        = (chainTree.initializeTimer "Z" [] "").1.timers.length) :=
  ⟨⟨by decide, by decide, by decide⟩,
   c5_initializeTimer_idempotent chainTree "Z" [] "" ["G"] "u"
     (by decide) (by decide) (by decide)⟩

lemma getGroupTimeF_congr (t : TimerTree) (group : String) (hwf : WF t) :
    ∀ (k : Nat) (id : Int), 0 ≤ id → id.toNat < t.timers.length →
      t.timers.length - id.toNat ≤ k →
      ∀ f1 f2 : Nat, t.timers.length - id.toNat ≤ f1 →
        t.timers.length - id.toNat ≤ f2 →
        t.getGroupTimeF group f1 id = t.getGroupTimeF group f2 id := by
  intro k
  induction k with
  | zero =>
    intro id h0 h1 hk f1 f2 hf1 hf2
    exact absurd hk (by omega)
  | succ k ih =>
    intro id h0 h1 hk f1 f2 hf1 hf2
    obtain ⟨a, rfl⟩ : ∃ a, f1 = a + 1 := ⟨f1 - 1, by omega⟩
    obtain ⟨b, rfl⟩ : ∃ b, f2 = b + 1 := ⟨f2 - 1, by omega⟩
    simp only [TimerTree.getGroupTimeF]
    by_cases hm : group ∈ (t.node id).groups
    · rw [if_pos hm, if_pos hm]
    · rw [if_neg hm, if_neg hm]
      congr 1
      apply List.map_congr_left
      intro c hcm
      have hOK := hwf id.toNat h1
      unfold nodeOK at hOK
      have hcast : ((id.toNat : Nat) : Int) = id := by omega
      rw [hcast] at hOK
      obtain ⟨-, -, -, hch⟩ := hOK
      obtain ⟨hgt, hlt, -⟩ := hch c hcm
      exact ih c (by omega) (by omega) (by omega) a b (by omega) (by omega)

lemma getGroupTimeF_succ (t : TimerTree) (group : String) (f : Nat)
    (id : Int) :
    t.getGroupTimeF group (f + 1) id
      = (if group ∈ (t.node id).groups then (t.node id).getAverageTime
        else ((t.node id).childIds.map fun c => t.getGroupTimeF group f c).sum) :=
  rfl

lemma getGroupTime_unfold (t : TimerTree) (group : String) (id : Int)
    (hwf : WF t) (h0 : 0 ≤ id) (h1 : id.toNat < t.timers.length) :
    t.getGroupTime group id
      = (if group ∈ (t.node id).groups then (t.node id).getAverageTime
        else ((t.node id).childIds.map fun c => t.getGroupTime group c).sum) := by
  show t.getGroupTimeF group t.timers.length id
    = (if group ∈ (t.node id).groups then (t.node id).getAverageTime
      else ((t.node id).childIds.map fun c => t.getGroupTime group c).sum)
  have hlen : t.timers.length = (t.timers.length - 1) + 1 := by omega
  rw [hlen, getGroupTimeF_succ]
  by_cases hm : group ∈ (t.node id).groups
  · rw [if_pos hm, if_pos hm]
  · rw [if_neg hm, if_neg hm]
    congr 1
    apply List.map_congr_left
    intro c hcm
    have hOK := hwf id.toNat h1
    unfold nodeOK at hOK
    have hcast : ((id.toNat : Nat) : Int) = id := by omega
    rw [hcast] at hOK
    obtain ⟨-, -, -, hch⟩ := hOK
    obtain ⟨hgt, hlt, -⟩ := hch c hcm
    show t.getGroupTimeF group (t.timers.length - 1) c
      = t.getGroupTimeF group t.timers.length c
    exact getGroupTimeF_congr t group hwf (t.timers.length - c.toNat) c
      (by omega) (by omega) (by omega) (t.timers.length - 1) t.timers.length
      (by omega) (by omega)

/-- C4: getGroupTime never double-counts: a node that itself belongs to
the group contributes exactly its own average time, with no descendant
contribution added on top, and a node outside the group contributes
exactly the sum of its direct children's group times — so when an
ancestor and a descendant both belong to the group, only the ancestor's
average time is counted. -/
theorem c4_getGroupTime_no_double_count (t : TimerTree) (group : String)
    (id : Int) (hwf : WF t) (h0 : 0 ≤ id)
    (h1 : id.toNat < t.timers.length) :
    (group ∈ (t.node id).groups →
      t.getGroupTime group id = (t.node id).getAverageTime)
    ∧ (group ∉ (t.node id).groups →
      t.getGroupTime group id
        = ((t.node id).childIds.map fun c => t.getGroupTime group c).sum) := by
  rw [getGroupTime_unfold t group id hwf h0 h1]
  constructor
  · intro hm
    rw [if_pos hm]
  · intro hm
    rw [if_neg hm]

/-- C4 witness: the chain tree's root is in group "Total", so its group
time is its own average time; and its child "A" (node 1) is not in
"Total", so node 1's group time is the sum over its direct children. -/
theorem c4_getGroupTime_no_double_count_witness :
    (WF chainTree ∧ 0 ≤ (0 : Int) ∧ (0 : Int).toNat < chainTree.timers.length)
    ∧ (("Total" ∈ (chainTree.node 0).groups →
        chainTree.getGroupTime "Total" 0 = (chainTree.node 0).getAverageTime)
      ∧ ("Total" ∉ (chainTree.node 0).groups →
        chainTree.getGroupTime "Total" 0
          = ((chainTree.node 0).childIds.map
              fun c => chainTree.getGroupTime "Total" c).sum)) :=
  ⟨⟨by decide, by decide, by decide⟩,
   c4_getGroupTime_no_double_count chainTree "Total" 0
     (by decide) (by decide) (by decide)⟩
